import Mathlib

/-!
Verification development for the `mirror` pipeline (`src/mirror/main.py`).

The pipeline downloads or references source artifacts, applies a chain of
content transforms, and pushes the results to an OCI registry, with a bounded
retry loop per job.  External effects (HTTP download, `skopeo`, `oras`,
`time.sleep`, the temporary directory) are modelled as an explicit event
trace; the outcomes of the external tools are supplied by environments
(`ImageEnv`, `FileEnv`, a `ToolOutcome` for the login), so that every
control-flow path of the Python source is represented.
-/

namespace Mirror

/-- Byte sequences: file contents are modelled as lists of byte values. -/
abbrev Bytes := List Nat

/-- A filesystem path: directory components plus a final file name, mirroring
`pathlib.Path` as used by `main.py`. -/
structure Path where
  dir : List String
  name : String
deriving DecidableEq, Repr

/-- The in-memory filesystem: a partial map from paths to file contents. -/
def FS : Type := Path → Option Bytes

def emptyFS : FS := fun _ => none

def updateFS (fs : FS) (p : Path) (b : Bytes) : FS :=
  fun q => if q = p then some b else fs q

/-- Index of the last `'.'` in a list of characters (`str.rfind(".")`). -/
def lastDotIdx : List Char → Option Nat
  | [] => none
  | c :: cs =>
    match lastDotIdx cs with
    | some i => some (i + 1)
    | none => if c = '.' then some 0 else none

/-- Position at which the suffix of a file name starts, following
`pathlib.PurePath.suffix`: the last dot counts as starting a suffix only when
it is neither the first nor the last character of the name. -/
def nameSuffixIdx (name : String) : Option Nat :=
  match lastDotIdx name.toList with
  | some i =>
    if 0 < i then (if i < name.toList.length - 1 then some i else none) else none
  | none => none

def hasSuffix (name : String) : Bool := (nameSuffixIdx name).isSome

/-- `PurePath.with_suffix("")` on the final component: strip the suffix. -/
def withSuffixName (name : String) : String :=
  match nameSuffixIdx name with
  | some i => String.mk (name.toList.take i)
  | none => name

/-- `input_path.with_suffix("")` as computed by the gunzip transformer. -/
def withSuffixEmpty (p : Path) : Path := ⟨p.dir, withSuffixName p.name⟩

/-- The two-byte gzip magic header. -/
def gzipMagic : Bytes := [31, 139]

/-- Modelled external collaborator (Python's `gzip` module): compression tags
the payload with the magic header.  Only the contract used by the source
matters: decoding is the inverse of compression and fails on data that does
not carry the header. -/
def gzipCompress (data : Bytes) : Bytes := gzipMagic ++ data

/-- Modelled external collaborator (Python's `gzip` module): an empty stream
is read as zero gzip members, so it decodes to empty output without error;
nonempty data must start with the magic header and then yields the payload;
nonempty data without the header fails with `BadGzipFile`. -/
def gzipDecode (data : Bytes) : Except String Bytes :=
  if data = [] then Except.ok []
  else if gzipMagic.isPrefixOf data then Except.ok (data.drop 2)
  else Except.error "BadGzipFile"

/-- Errors raised inside the transform pipeline. -/
inductive TErr where
  | unknownTransformer (t : Option String)
  | decodeError (msg : String)
  | ioError
deriving DecidableEq, Repr

/-- A transformer takes the filesystem and an input path and produces the
updated filesystem together with the output path or a raised error. -/
abbrev TransformFn := FS → Path → FS × Except TErr Path

/-- `gunzip_transformer`: the output path is the input path with its suffix
stripped; the output file is opened for writing (which truncates it) before
the gzip stream is read, so when the output path coincides with the input
path the data subsequently read is empty — and an empty stream is read as
zero gzip members, so the copy writes nothing and the function returns the
output path without error. -/
def gunzip_transformer (fs : FS) (input_path : Path) : FS × Except TErr Path :=
  let output_path := withSuffixEmpty input_path
  match fs input_path with
  | none => (fs, Except.error TErr.ioError)
  | some data =>
    let readData := if output_path = input_path then [] else data
    match gzipDecode readData with
    | Except.error e => (updateFS fs output_path [], Except.error (TErr.decodeError e))
    | Except.ok raw => (updateFS fs output_path raw, Except.ok output_path)

/-- The transformer registry `TRANSFORMERS`, populated at load time with the
built-in `gunzip` transformer. -/
def TRANSFORMERS : List (String × TransformFn) := [("gunzip", gunzip_transformer)]

/-- One transform step from configuration; `type` is `transform.get("type")`,
which is absent (`none`) when the key is missing. -/
structure TransformStep where
  type : Option String

/-- Registry lookup: `transform_type not in TRANSFORMERS` is the unknown case. -/
def lookupTransformer : Option String → Option TransformFn
  | none => none
  | some name => (TRANSFORMERS.find? (fun pr => pr.1 == name)).map Prod.snd

/-- `apply_transforms`: walk the steps in declared order, each step consuming
the previous step's output path; raise on an unregistered type.  The
filesystem is threaded through even when a step raises. -/
def apply_transforms (fs : FS) (file_path : Path) :
    List TransformStep → FS × Except TErr Path
  | [] => (fs, Except.ok file_path)
  | t :: rest =>
    match lookupTransformer t.type with
    | none => (fs, Except.error (TErr.unknownTransformer t.type))
    | some f =>
      match f fs file_path with
      | (fs2, Except.error e) => (fs2, Except.error e)
      | (fs2, Except.ok p2) => apply_transforms fs2 p2 rest

/-- Spec-side formulation (for the fold claim): one pipeline step as a fold
action over the accumulated filesystem and current path / error. -/
def applyStepSpec (acc : FS × Except TErr Path) (t : TransformStep) :
    FS × Except TErr Path :=
  match acc.2 with
  | Except.error e => (acc.1, Except.error e)
  | Except.ok p =>
    match lookupTransformer t.type with
    | none => (acc.1, Except.error (TErr.unknownTransformer t.type))
    | some f => f acc.1 p

/-- Spec-side formulation: the pipeline as a left fold of the step functions
over the initial path in declared order. -/
def apply_transforms_foldSpec (fs : FS) (p : Path) (steps : List TransformStep) :
    FS × Except TErr Path :=
  steps.foldl applyStepSpec (fs, Except.ok p)

/-- Observable effects of the mirroring pipeline. -/
inductive Ev where
  | fetch (url : String) (dest : Path)
  | push (ref : String) (file : Path)
  | copy (srcRef destRef : String)
  | sleep (secs : Nat)
  | tmpCreate (dir : List String)
  | tmpDelete (dir : List String)
deriving DecidableEq, Repr

def isFetch : Ev → Bool
  | Ev.fetch _ _ => true
  | _ => false

def isPush : Ev → Bool
  | Ev.push _ _ => true
  | _ => false

def isCopy : Ev → Bool
  | Ev.copy _ _ => true
  | _ => false

def isSleep : Ev → Bool
  | Ev.sleep _ => true
  | _ => false

/-- The owner placeholder token substituted into destination strings. -/
def ownerPlaceholder : String := "\x7b\x7bGITHUB_REPOSITORY_OWNER\x7d\x7d"

def ownerTokenChars : List Char := ownerPlaceholder.toList

/-- `str.replace` specialised to the owner placeholder: every non-overlapping
occurrence is replaced, scanning left to right.  The fuel argument only
bounds the recursion; every step consumes at least one character, so fuel
equal to the input length never runs out. -/
def replaceOwnerGo (rep : List Char) : Nat → List Char → List Char
  | 0, l => l
  | _ + 1, [] => []
  | fuel + 1, c :: cs =>
    if ownerTokenChars.isPrefixOf (c :: cs) then
      rep ++ replaceOwnerGo rep fuel (List.drop (ownerTokenChars.length - 1) cs)
    else
      c :: replaceOwnerGo rep fuel cs

def replaceOwnerChars (rep : List Char) (l : List Char) : List Char :=
  replaceOwnerGo rep l.length l

/-- `destination.replace("{{GITHUB_REPOSITORY_OWNER}}", registry_owner)`
(the placeholder written literally in the source). -/
def replaceOwner (s owner : String) : String :=
  String.mk (replaceOwnerChars owner.toList s.toList)

/-- Outcome of one external tool invocation: a raised exception or an exit
code. -/
inductive ToolOutcome where
  | exc
  | exit (code : Nat)
deriving DecidableEq, Repr

/-- `oras_login`: success iff the login tool exits with code zero. -/
def oras_login (res : ToolOutcome) : Bool :=
  match res with
  | ToolOutcome.exit 0 => true
  | _ => false

/-- `",".join(tags)` -/
def joinComma (tags : List String) : String := String.intercalate "," tags

/-- `push_file_to_registry`: resolves the owner placeholder in the
destination, joins all tags with commas into a single reference, and invokes
`oras push` once; success iff the exit code is zero, and any raised error is
caught and reported as failure. -/
def push_file_to_registry (res : ToolOutcome) (file_path : Path)
    (destination : String) (tags : List String) (registry_owner : String)
    (registry_username registry_password : String) (mime_type : Option String) :
    List Ev × Bool :=
  let destination := replaceOwner destination registry_owner
  let tags_str := joinComma tags
  let dest_full := destination ++ ":" ++ tags_str
  match res with
  | ToolOutcome.exc => ([Ev.push dest_full file_path], false)
  | ToolOutcome.exit c => ([Ev.push dest_full file_path], c == 0)

/-- The shared shape of the retry loops of `mirror_image` and `mirror_file`:
`for attempt in range(1, retry_attempts + 1)`, returning on the first
successful attempt and sleeping `retry_delay` seconds after every failed
attempt except the final one.  `n` is the current attempt number and the
third argument counts the remaining attempts. -/
def retryGo {σ : Type} (step : σ → Nat → σ × List Ev × Bool) (delay : Nat) :
    σ → Nat → Nat → List Ev × Bool
  | _, _, 0 => ([], false)
  | s, n, r + 1 =>
    let a := step s n
    if a.2.2 then (a.2.1, true)
    else
      let rest := retryGo step delay a.1 (n + 1) r
      (a.2.1 ++ (if 0 < r then [Ev.sleep delay] else []) ++ rest.1, rest.2)

/-- Per-attempt outcomes of the `skopeo copy` subprocess. -/
structure ImageEnv where
  copyRes : Nat → ToolOutcome

/-- Whether the copy subprocess of attempt `n` exits with code zero. -/
def imageSucc (env : ImageEnv) (n : Nat) : Bool :=
  match env.copyRes n with
  | ToolOutcome.exit 0 => true
  | _ => false

/-- One attempt of `mirror_image`: invoke `skopeo copy` on the fully resolved
references; success iff exit code zero, any raised error caught. -/
def imageAttempt (env : ImageEnv) (source_full dest_full : String) (s : Unit)
    (n : Nat) : Unit × List Ev × Bool :=
  (s, [Ev.copy ("docker://" ++ source_full) ("docker://" ++ dest_full)],
    imageSucc env n)

/-- `mirror_image`: resolve the owner placeholder in the destination, build
the per-tag references, and retry the copy up to `retry_attempts` times. -/
def mirror_image (env : ImageEnv) (source destination tag registry_owner : String)
    (registry_username registry_password : String)
    (retry_attempts retry_delay : Nat) : List Ev × Bool :=
  let destination := replaceOwner destination registry_owner
  let source_full := source ++ ":" ++ tag
  let dest_full := destination ++ ":" ++ tag
  retryGo (imageAttempt env source_full dest_full) retry_delay () 1 retry_attempts

/-- Per-attempt outcomes of the external collaborators of a file job: the
HTTP download (an exception, or the downloaded bytes) and the `oras push`
subprocess; `tmpdir` is the name of the temporary directory handed out by
`tempfile.TemporaryDirectory`. -/
structure FileEnv where
  fetchRes : Nat → Except Unit Bytes
  pushRes : Nat → ToolOutcome
  tmpdir : List String

/-- Split a character list on `'/'`, keeping empty segments (`str.split("/")`). -/
def splitOnSlash : List Char → List (List Char)
  | [] => [[]]
  | c :: cs =>
    let r := splitOnSlash cs
    if c = '/' then [] :: r
    else
      match r with
      | [] => [[c]]
      | h :: t => (c :: h) :: t

/-- Last segment of a split, or empty. -/
def lastOrEmpty : List (List Char) → List Char
  | [] => []
  | [x] => x
  | _ :: x :: xs => lastOrEmpty (x :: xs)

/-- `source.split("/")[-1]` -/
def filenameOf (source : String) : String :=
  String.mk (lastOrEmpty (splitOnSlash source.toList))

/-- One attempt of `mirror_file`'s loop: download into the temporary
directory, apply the transforms when any are declared, then push; any raised
error is caught and the attempt reports failure. -/
def fileAttempt (env : FileEnv) (source destination : String) (tags : List String)
    (transforms : List TransformStep) (registry_owner : String)
    (registry_username registry_password : String) (mime_type : Option String)
    (fs : FS) (n : Nat) : FS × List Ev × Bool :=
  let download_path : Path := ⟨env.tmpdir, filenameOf source⟩
  match env.fetchRes n with
  | Except.error _ => (fs, [Ev.fetch source download_path], false)
  | Except.ok bytes =>
    let fs1 := updateFS fs download_path bytes
    let tr := if transforms.isEmpty then (fs1, Except.ok download_path)
              else apply_transforms fs1 download_path transforms
    match tr.2 with
    | Except.error _ => (tr.1, [Ev.fetch source download_path], false)
    | Except.ok processed =>
      let pr := push_file_to_registry (env.pushRes n) processed destination tags
        registry_owner registry_username registry_password mime_type
      (tr.1, Ev.fetch source download_path :: pr.1, pr.2)

/-- `mirror_file`: create the temporary directory, run the retry loop of
download + transform + push inside it, and delete the directory when the
`with` block is left, whatever the outcome. -/
def mirror_file (env : FileEnv) (source destination : String) (tags : List String)
    (transforms : List TransformStep) (registry_owner : String)
    (registry_username registry_password : String) (mime_type : Option String)
    (retry_attempts retry_delay : Nat) : List Ev × Bool :=
  let res := retryGo
    (fileAttempt env source destination tags transforms registry_owner
      registry_username registry_password mime_type)
    retry_delay emptyFS 1 retry_attempts
  (Ev.tmpCreate env.tmpdir :: res.1 ++ [Ev.tmpDelete env.tmpdir], res.2)

/-- The state the retry loop has reached after `n` attempts (all failed). -/
def iterState {σ : Type} (step : σ → Nat → σ × List Ev × Bool) (s0 : σ) :
    Nat → σ
  | 0 => s0
  | n + 1 => (step (iterState step s0 n) (n + 1)).1

/-- Whether the `n`-th attempt of the loop started from `s0` would succeed,
given that every earlier attempt failed. -/
def retrySuccAt {σ : Type} (step : σ → Nat → σ × List Ev × Bool) (s0 : σ)
    (n : Nat) : Bool :=
  (step (iterState step s0 (n - 1)) n).2.2

/-- Whether the download + transform + push operation underlying attempt `n`
of a file job succeeds. -/
def fileSucc (env : FileEnv) (source destination : String) (tags : List String)
    (transforms : List TransformStep) (registry_owner : String)
    (registry_username registry_password : String) (mime_type : Option String)
    (n : Nat) : Bool :=
  retrySuccAt
    (fileAttempt env source destination tags transforms registry_owner
      registry_username registry_password mime_type)
    emptyFS n

/-- The underlying operation first succeeds on attempt `k`. -/
def firstSuccessAt (succ : Nat → Bool) (k : Nat) : Prop :=
  succ k = true ∧ ∀ j, 1 ≤ j → j < k → succ j = false

/-- Every attempt up to `total` fails. -/
def allFailThrough (succ : Nat → Bool) (total : Nat) : Prop :=
  ∀ j, 1 ≤ j → j ≤ total → succ j = false

/-- Coordinator-level observable events of `main`. -/
inductive CoEv where
  | imageTag (ok : Bool)
  | login (ok : Bool)
  | fileJob (ok : Bool)
deriving DecidableEq, Repr

def isImageTagEv : CoEv → Bool
  | CoEv.imageTag _ => true
  | _ => false

def isLoginEv : CoEv → Bool
  | CoEv.login _ => true
  | _ => false

def isFileJobEv : CoEv → Bool
  | CoEv.fileJob _ => true
  | _ => false

def isFileJobOk : CoEv → Bool
  | CoEv.fileJob true => true
  | _ => false

/-- Number of failed outcomes in a list. -/
def countFalse (l : List Bool) : Nat := l.countP (fun b => !b)

/-- The per-image-job tag loop of `main`: each tag is mirrored independently
and each failure increments the failure counter by one. -/
def processTags : List Bool → List CoEv × Nat
  | [] => ([], 0)
  | ok :: rest =>
    let r := processTags rest
    (CoEv.imageTag ok :: r.1, (if ok then 0 else 1) + r.2)

/-- The Docker-image section of `main`. -/
def processImages : List (List Bool) → List CoEv × Nat
  | [] => ([], 0)
  | tags :: rest =>
    let a := processTags tags
    let b := processImages rest
    (a.1 ++ b.1, a.2 + b.2)

/-- The file section of `main` after a successful login: each file job's
failure increments the failure counter by one. -/
def processFiles : List Bool → List CoEv × Nat
  | [] => ([], 0)
  | ok :: rest =>
    let r := processFiles rest
    (CoEv.fileJob ok :: r.1, (if ok then 0 else 1) + r.2)

/-- The coordinator `main`, abstracted over the outcomes of the per-tag
`mirror_image` calls (`images`), the login tool (`loginRes`) and the per-job
`mirror_file` calls (`files`): all image jobs run first; only when the file
list is non-empty is `oras_login` performed, once, and a failed login exits
immediately with code 1 before any file job; otherwise the exit code is 0 iff
the accumulated failure counter is zero.  Returns (event trace, failure
counter at exit, exit code). -/
def main_run (images : List (List Bool)) (loginRes : ToolOutcome)
    (files : List Bool) : List CoEv × Nat × Nat :=
  let img := processImages images
  if files.isEmpty then
    (img.1, img.2, if 0 < img.2 then 1 else 0)
  else if oras_login loginRes then
    let fl := processFiles files
    (img.1 ++ CoEv.login true :: fl.1, img.2 + fl.2,
      if 0 < img.2 + fl.2 then 1 else 0)
  else
    (img.1 ++ [CoEv.login false], img.2, 1)

/-- Concrete file environment used for evaluating concrete runs: the
download always yields an empty payload and the push tool always exits 0. -/
def cenvFile : FileEnv :=
  { fetchRes := fun _ => Except.ok []
    pushRes := fun _ => ToolOutcome.exit 0
    tmpdir := ["tmp"] }

/-- Concrete image environment: the copy fails (exit 7) on attempt 1 and
succeeds on every later attempt. -/
def cenvImage : ImageEnv :=
  { copyRes := fun n => if n ≤ 1 then ToolOutcome.exit 7 else ToolOutcome.exit 0 }

/-- Concrete file environment whose push fails on attempt 1 and succeeds on
every later attempt. -/
def cenvFileRetry : FileEnv :=
  { fetchRes := fun _ => Except.ok []
    pushRes := fun n => if n ≤ 1 then ToolOutcome.exit 7 else ToolOutcome.exit 0
    tmpdir := ["tmp"] }

/-- Concrete file environment where every push attempt fails. -/
def cenvFileFail : FileEnv :=
  { fetchRes := fun _ => Except.ok []
    pushRes := fun _ => ToolOutcome.exit 7
    tmpdir := ["tmp"] }

/-- Concrete image environment where every copy attempt raises. -/
def cenvImageFail : ImageEnv :=
  { copyRes := fun _ => ToolOutcome.exc }

/-- Concrete image environment where every copy attempt exits 0. -/
def cenvImageOk : ImageEnv :=
  { copyRes := fun _ => ToolOutcome.exit 0 }

/-! ## Helper lemmas -/

theorem nameSuffixIdx_some (name : String) (i : Nat)
    (h : nameSuffixIdx name = some i) : 0 < i ∧ i < name.toList.length - 1 := by
  unfold nameSuffixIdx at h
  rcases hl : lastDotIdx name.toList with _ | j
  · rw [hl] at h
    cases h
  · rw [hl] at h
    dsimp only at h
    by_cases h0 : 0 < j
    · rw [if_pos h0] at h
      by_cases h1 : j < name.toList.length - 1
      · rw [if_pos h1] at h
        cases h
        exact ⟨h0, h1⟩
      · rw [if_neg h1] at h
        cases h
    · rw [if_neg h0] at h
      cases h

theorem withSuffixEmpty_eq_of_no_suffix (p : Path) (h : hasSuffix p.name = false) :
    withSuffixEmpty p = p := by
  unfold hasSuffix at h
  unfold withSuffixEmpty withSuffixName
  rcases hn : nameSuffixIdx p.name with _ | i
  · rfl
  · rw [hn] at h
    simp at h

theorem withSuffixEmpty_ne_of_suffix (p : Path) (h : hasSuffix p.name = true) :
    withSuffixEmpty p ≠ p := by
  unfold hasSuffix at h
  rcases hn : nameSuffixIdx p.name with _ | i
  · rw [hn] at h
    simp at h
  · have hi := nameSuffixIdx_some p.name i hn
    intro he
    have hname : withSuffixName p.name = p.name := congrArg Path.name he
    unfold withSuffixName at hname
    rw [hn] at hname
    have hlen : (p.name.toList.take i).length = p.name.toList.length := by
      have := congrArg (fun s : String => s.toList.length) hname
      simpa using this
    rw [List.length_take] at hlen
    omega

theorem gzipDecode_compress (b : Bytes) : gzipDecode (gzipCompress b) = Except.ok b := by
  simp [gzipDecode, gzipCompress, gzipMagic, List.isPrefixOf]

theorem gzipDecode_nil : gzipDecode [] = Except.ok [] := rfl

theorem gzipDecode_bad (d : Bytes) (h1 : d ≠ [])
    (h2 : gzipMagic.isPrefixOf d = false) :
    gzipDecode d = Except.error "BadGzipFile" := by
  simp [gzipDecode, h1, h2]

theorem foldSpec_error (l : List TransformStep) (fs : FS) (e : TErr) :
    l.foldl applyStepSpec (fs, Except.error e) = (fs, Except.error e) := by
  induction l with
  | nil => rfl
  | cons t rest ih =>
    rw [List.foldl_cons]
    exact ih

theorem apply_transforms_unknown_err (steps : List TransformStep) :
    ∀ (fs : FS) (p : Path), (∃ s ∈ steps, lookupTransformer s.type = none) →
      ∃ e, (apply_transforms fs p steps).2 = Except.error e := by
  induction steps with
  | nil =>
    intro fs p h
    simp at h
  | cons t rest ih =>
    intro fs p h
    unfold apply_transforms
    rcases hl : lookupTransformer t.type with _ | f
    · exact ⟨TErr.unknownTransformer t.type, rfl⟩
    · dsimp only
      have hrest : ∃ s ∈ rest, lookupTransformer s.type = none := by
        rcases h with ⟨s, hs, hnone⟩
        rcases List.mem_cons.mp hs with rfl | hs2
        · rw [hl] at hnone
          cases hnone
        · exact ⟨s, hs2, hnone⟩
      rcases hf : f fs p with ⟨fs2, e2⟩
      rcases e2 with e | p2
      · exact ⟨e, rfl⟩
      · exact ih fs2 p2 hrest

theorem push_file_evs (res : ToolOutcome) (file_path : Path) (destination : String)
    (tags : List String) (registry_owner ru rp : String) (mime_type : Option String) :
    (push_file_to_registry res file_path destination tags registry_owner ru rp
      mime_type).1 =
      [Ev.push (replaceOwner destination registry_owner ++ ":" ++ joinComma tags)
        file_path] := by
  cases res <;> rfl

/-! ## Generic retry-loop lemmas -/

theorem iterState_succ_pred {σ : Type} (step : σ → Nat → σ × List Ev × Bool)
    (s0 : σ) (n : Nat) (h : 1 ≤ n) :
    (step (iterState step s0 (n - 1)) n).1 = iterState step s0 n := by
  obtain ⟨m, rfl⟩ : ∃ m, n = m + 1 := ⟨n - 1, by omega⟩
  simp [iterState]

theorem retryGo_events_all {σ : Type} (step : σ → Nat → σ × List Ev × Bool)
    (delay : Nat) (P : Ev → Prop)
    (hstep : ∀ s n, ∀ e ∈ (step s n).2.1, P e)
    (hsleep : ∀ d, P (Ev.sleep d)) :
    ∀ (r n : Nat) (s : σ), ∀ e ∈ (retryGo step delay s n r).1, P e := by
  intro r
  induction r with
  | zero =>
    intro n s e he
    simp [retryGo] at he
  | succ r ih =>
    intro n s e he
    simp only [retryGo] at he
    by_cases h : (step s n).2.2 = true
    · rw [if_pos h] at he
      exact hstep s n e he
    · rw [if_neg h] at he
      simp only [List.mem_append] at he
      rcases he with (h1 | h2) | h3
      · exact hstep s n e h1
      · have : e = Ev.sleep delay := by
          by_cases hr : 0 < r
          · simpa [hr] using h2
          · simp [hr] at h2
        rw [this]
        exact hsleep delay
      · exact ih (n + 1) (step s n).1 e h3

theorem retryGo_false_of_stepFalse {σ : Type} (step : σ → Nat → σ × List Ev × Bool)
    (delay : Nat) (h : ∀ s n, (step s n).2.2 = false) :
    ∀ (r n : Nat) (s : σ), (retryGo step delay s n r).2 = false := by
  intro r
  induction r with
  | zero => intro n s; rfl
  | succ r ih =>
    intro n s
    simp only [retryGo, h s n]
    simp only [Bool.false_eq_true, if_false]
    exact ih (n + 1) (step s n).1

theorem retryGo_countP_zero {σ : Type} (step : σ → Nat → σ × List Ev × Bool)
    (delay : Nat) (p : Ev → Bool)
    (h0 : ∀ s n, (step s n).2.1.countP p = 0)
    (hps : ∀ d, p (Ev.sleep d) = false) :
    ∀ (r n : Nat) (s : σ), (retryGo step delay s n r).1.countP p = 0 := by
  intro r
  induction r with
  | zero => intro n s; rfl
  | succ r ih =>
    intro n s
    simp only [retryGo]
    by_cases h : (step s n).2.2 = true
    · rw [if_pos h]
      exact h0 s n
    · rw [if_neg h]
      simp only [List.countP_append, h0 s n, ih (n + 1) (step s n).1]
      by_cases hr : 0 < r
      · simp [hr, List.countP_cons, hps]
      · simp [hr]

theorem retryGo_count_firstSuccess {σ : Type} (step : σ → Nat → σ × List Ev × Bool)
    (delay : Nat) (s0 : σ) (p : Ev → Bool)
    (hA : ∀ s n, (step s n).2.1.countP p = 1)
    (hS : ∀ s n, (step s n).2.1.countP isSleep = 0)
    (hPS : ∀ d, p (Ev.sleep d) = false) (k : Nat) :
    ∀ r n, 1 ≤ n → n ≤ k → k < n + r →
      (∀ j, n ≤ j → j < k → retrySuccAt step s0 j = false) →
      retrySuccAt step s0 k = true →
      (retryGo step delay (iterState step s0 (n - 1)) n r).1.countP p = k + 1 - n ∧
      (retryGo step delay (iterState step s0 (n - 1)) n r).1.countP isSleep = k - n ∧
      (retryGo step delay (iterState step s0 (n - 1)) n r).2 = true := by
  intro r
  induction r with
  | zero =>
    intro n h1 h2 h3 _ _
    omega
  | succ r ih =>
    intro n h1 h2 h3 hfail hk
    by_cases hnk : n = k
    · subst hnk
      have hs : (step (iterState step s0 (n - 1)) n).2.2 = true := hk
      simp only [retryGo, hs, if_true]
      refine ⟨?_, ?_, ?_⟩
      · rw [hA]
        omega
      · rw [hS]
        omega
      · trivial
    · have hlt : n < k := by omega
      have hf : (step (iterState step s0 (n - 1)) n).2.2 = false :=
        hfail n (le_refl n) hlt
      simp only [retryGo, hf, Bool.false_eq_true, if_false]
      rw [iterState_succ_pred step s0 n h1]
      have hr : 0 < r := by omega
      have ihh := ih (n + 1) (by omega) (by omega) (by omega)
        (fun j hj1 hj2 => hfail j (by omega) hj2) hk
      simp only [Nat.add_sub_cancel] at ihh
      refine ⟨?_, ?_, ihh.2.2⟩
      · simp only [List.countP_append, hA, ihh.1, hr, if_pos, List.countP_cons]
        simp [hPS]
        omega
      · simp only [List.countP_append, hS, ihh.2.1, hr, if_pos, List.countP_cons]
        simp [isSleep]
        omega

theorem retryGo_count_allFail {σ : Type} (step : σ → Nat → σ × List Ev × Bool)
    (delay : Nat) (s0 : σ) (p : Ev → Bool)
    (hA : ∀ s n, (step s n).2.1.countP p = 1)
    (hS : ∀ s n, (step s n).2.1.countP isSleep = 0)
    (hPS : ∀ d, p (Ev.sleep d) = false) :
    ∀ r n, 1 ≤ n →
      (∀ j, n ≤ j → j < n + r → retrySuccAt step s0 j = false) →
      (retryGo step delay (iterState step s0 (n - 1)) n r).1.countP p = r ∧
      (retryGo step delay (iterState step s0 (n - 1)) n r).1.countP isSleep = r - 1 ∧
      (retryGo step delay (iterState step s0 (n - 1)) n r).2 = false := by
  intro r
  induction r with
  | zero =>
    intro n h1 _
    exact ⟨rfl, rfl, rfl⟩
  | succ r ih =>
    intro n h1 hfail
    have hf : (step (iterState step s0 (n - 1)) n).2.2 = false :=
      hfail n (le_refl n) (by omega)
    simp only [retryGo, hf, Bool.false_eq_true, if_false]
    rw [iterState_succ_pred step s0 n h1]
    have ihh := ih (n + 1) (by omega) (fun j hj1 hj2 => hfail j (by omega) (by omega))
    simp only [Nat.add_sub_cancel] at ihh
    refine ⟨?_, ?_, ihh.2.2⟩
    · simp only [List.countP_append, hA, ihh.1]
      by_cases hr : 0 < r
      · simp [hr, List.countP_cons, hPS]
        omega
      · simp [hr]
        omega
    · simp only [List.countP_append, hS, ihh.2.1]
      by_cases hr : 0 < r
      · simp [hr, List.countP_cons, isSleep]
        omega
      · simp [hr]
        omega

/-! ## Per-attempt lemmas for `mirror_file` -/

theorem fileAttempt_evs_shape (env : FileEnv) (source destination : String)
    (tags : List String) (transforms : List TransformStep)
    (registry_owner ru rp : String) (mime_type : Option String) (fs : FS) (n : Nat) :
    (fileAttempt env source destination tags transforms registry_owner ru rp
        mime_type fs n).2.1 = [Ev.fetch source ⟨env.tmpdir, filenameOf source⟩] ∨
    ∃ pth, (fileAttempt env source destination tags transforms registry_owner ru rp
        mime_type fs n).2.1 =
      [Ev.fetch source ⟨env.tmpdir, filenameOf source⟩,
       Ev.push (replaceOwner destination registry_owner ++ ":" ++ joinComma tags) pth] := by
  unfold fileAttempt
  rcases env.fetchRes n with u | bytes
  · exact Or.inl rfl
  · dsimp only
    by_cases ht : transforms.isEmpty
    · rw [if_pos ht]
      dsimp only
      right
      exact ⟨_, by rw [push_file_evs]⟩
    · rw [if_neg ht]
      rcases htr : (apply_transforms
          (updateFS fs ⟨env.tmpdir, filenameOf source⟩ bytes)
          ⟨env.tmpdir, filenameOf source⟩ transforms).2 with e2 | p2
      · exact Or.inl rfl
      · right
        refine ⟨p2, ?_⟩
        dsimp only
        rw [push_file_evs]

theorem fileAttempt_countFetch (env : FileEnv) (source destination : String)
    (tags : List String) (transforms : List TransformStep)
    (registry_owner ru rp : String) (mime_type : Option String) (fs : FS) (n : Nat) :
    (fileAttempt env source destination tags transforms registry_owner ru rp
        mime_type fs n).2.1.countP isFetch = 1 := by
  rcases fileAttempt_evs_shape env source destination tags transforms registry_owner
    ru rp mime_type fs n with h | ⟨pth, h⟩ <;>
    simp [h, List.countP_cons, isFetch]

theorem fileAttempt_countSleep (env : FileEnv) (source destination : String)
    (tags : List String) (transforms : List TransformStep)
    (registry_owner ru rp : String) (mime_type : Option String) (fs : FS) (n : Nat) :
    (fileAttempt env source destination tags transforms registry_owner ru rp
        mime_type fs n).2.1.countP isSleep = 0 := by
  rcases fileAttempt_evs_shape env source destination tags transforms registry_owner
    ru rp mime_type fs n with h | ⟨pth, h⟩ <;>
    simp [h, List.countP_cons, isSleep]

theorem fileAttempt_unknown_fails (env : FileEnv) (source destination : String)
    (tags : List String) (transforms : List TransformStep)
    (registry_owner ru rp : String) (mime_type : Option String)
    (h : ∃ s ∈ transforms, lookupTransformer s.type = none) (fs : FS) (n : Nat) :
    (fileAttempt env source destination tags transforms registry_owner ru rp
        mime_type fs n).2.1.countP isPush = 0 ∧
    (fileAttempt env source destination tags transforms registry_owner ru rp
        mime_type fs n).2.2 = false := by
  have hne : transforms.isEmpty = false := by
    rcases h with ⟨s, hs, _⟩
    cases transforms
    · simp at hs
    · rfl
  unfold fileAttempt
  rcases env.fetchRes n with u | bytes
  · exact ⟨rfl, rfl⟩
  · dsimp only
    rw [hne]
    simp only [Bool.false_eq_true, if_false]
    obtain ⟨e, he⟩ := apply_transforms_unknown_err transforms
      (updateFS fs ⟨env.tmpdir, filenameOf source⟩ bytes)
      ⟨env.tmpdir, filenameOf source⟩ h
    rw [he]
    exact ⟨rfl, rfl⟩

/-! ## Coordinator lemmas -/

theorem processTags_events (l : List Bool) :
    (processTags l).1 = l.map CoEv.imageTag := by
  induction l with
  | nil => rfl
  | cons a l ih => simp [processTags, ih]

theorem processTags_fail (l : List Bool) : (processTags l).2 = countFalse l := by
  induction l with
  | nil => rfl
  | cons a l ih =>
    cases a <;> simp [processTags, countFalse, List.countP_cons, ih] <;> omega

theorem processImages_events (l : List (List Bool)) :
    (processImages l).1 = (l.map (fun t => t.map CoEv.imageTag)).join := by
  induction l with
  | nil => rfl
  | cons t l ih => simp [processImages, processTags_events, ih]

theorem processImages_fail (l : List (List Bool)) :
    (processImages l).2 = (l.map countFalse).sum := by
  induction l with
  | nil => rfl
  | cons t l ih => simp [processImages, processTags_fail, ih]

theorem processFiles_events (l : List Bool) :
    (processFiles l).1 = l.map CoEv.fileJob := by
  induction l with
  | nil => rfl
  | cons a l ih => simp [processFiles, ih]

theorem processFiles_fail (l : List Bool) : (processFiles l).2 = countFalse l := by
  induction l with
  | nil => rfl
  | cons a l ih =>
    cases a <;> simp [processFiles, countFalse, List.countP_cons, ih] <;> omega

theorem countFalse_zero_iff (l : List Bool) :
    countFalse l = 0 ↔ ∀ b ∈ l, b = true := by
  simp [countFalse, List.countP_eq_zero]

theorem processImages_fail_zero_iff (l : List (List Bool)) :
    (processImages l).2 = 0 ↔ ∀ t ∈ l, ∀ b ∈ t, b = true := by
  rw [processImages_fail, List.sum_eq_zero_iff]
  constructor
  · intro h t ht
    exact (countFalse_zero_iff t).mp (h (countFalse t) (List.mem_map_of_mem countFalse ht))
  · intro h x hx
    rcases List.mem_map.mp hx with ⟨t, ht, rfl⟩
    exact (countFalse_zero_iff t).mpr (h t ht)

theorem processImages_countFileOk (l : List (List Bool)) :
    (processImages l).1.countP isFileJobOk = 0 := by
  rw [processImages_events, List.countP_eq_zero]
  intro e he
  rcases List.mem_join.mp he with ⟨t, ht, het⟩
  rcases List.mem_map.mp ht with ⟨tags, _, rfl⟩
  rcases List.mem_map.mp het with ⟨b, _, rfl⟩
  simp [isFileJobOk]

theorem processImages_countLogin (l : List (List Bool)) :
    (processImages l).1.countP isLoginEv = 0 := by
  rw [processImages_events, List.countP_eq_zero]
  intro e he
  rcases List.mem_join.mp he with ⟨t, ht, het⟩
  rcases List.mem_map.mp ht with ⟨tags, _, rfl⟩
  rcases List.mem_map.mp het with ⟨b, _, rfl⟩
  simp [isLoginEv]

theorem processFiles_countLogin (l : List Bool) :
    (processFiles l).1.countP isLoginEv = 0 := by
  rw [processFiles_events, List.countP_map]
  simp [Function.comp, isLoginEv]

theorem processFiles_countFileOk (l : List Bool) :
    (processFiles l).1.countP isFileJobOk = l.countP (fun b => b) := by
  rw [processFiles_events, List.countP_map]
  congr 1
  funext b
  cases b <;> rfl

theorem processFiles_countFileOk_length_iff (l : List Bool) :
    (processFiles l).1.countP isFileJobOk = l.length ↔ ∀ b ∈ l, b = true := by
  rw [processFiles_countFileOk]
  rw [List.countP_eq_length]

theorem processImages_all_imageTag (l : List (List Bool)) :
    ∀ e ∈ (processImages l).1, ∃ b, e = CoEv.imageTag b := by
  rw [processImages_events]
  intro e he
  rcases List.mem_join.mp he with ⟨t, ht, het⟩
  rcases List.mem_map.mp ht with ⟨tags, _, rfl⟩
  rcases List.mem_map.mp het with ⟨b, _, rfl⟩
  exact ⟨b, rfl⟩

theorem processFiles_all_fileJob (l : List Bool) :
    ∀ e ∈ (processFiles l).1, ∃ b, e = CoEv.fileJob b := by
  rw [processFiles_events]
  intro e he
  rcases List.mem_map.mp he with ⟨b, _, rfl⟩
  exact ⟨b, rfl⟩

/-! ## Claim theorems -/

/-- C8: for every input path whose final component has no file-name suffix,
the gunzip transformer's output path (`with_suffix("")`) equals the input
path itself — so the destination it opens for writing is the very file it is
reading: the open truncates the file, the truncated file is then read as an
empty (zero-member) gzip stream, nothing is copied, and the transformer
silently succeeds, returning the input path with its content destroyed.  The
stripped path is distinct from the input exactly when a suffix is present. -/
theorem gunzip_output_path_identity :
    (∀ p : Path, hasSuffix p.name = false → withSuffixEmpty p = p) ∧
    (∀ p : Path, hasSuffix p.name = true → withSuffixEmpty p ≠ p) ∧
    (∀ (fs : FS) (p : Path) (d : Bytes), hasSuffix p.name = false → fs p = some d →
      gunzip_transformer fs p = (updateFS fs p [], Except.ok p)) := by
  refine ⟨withSuffixEmpty_eq_of_no_suffix, withSuffixEmpty_ne_of_suffix, ?_⟩
  intro fs p d h hfs
  have he := withSuffixEmpty_eq_of_no_suffix p h
  unfold gunzip_transformer
  rw [hfs]
  dsimp only
  rw [he, if_pos rfl, gzipDecode_nil]

/-- Witness for C8 at concrete paths. -/
theorem gunzip_output_path_identity_witness :
    withSuffixEmpty ⟨["tmp"], "file"⟩ = ⟨["tmp"], "file"⟩ ∧
    withSuffixEmpty ⟨["tmp"], "f.gz"⟩ ≠ (⟨["tmp"], "f.gz"⟩ : Path) ∧
    gunzip_transformer (updateFS emptyFS ⟨["tmp"], "file"⟩ [1, 2]) ⟨["tmp"], "file"⟩ =
      (updateFS (updateFS emptyFS ⟨["tmp"], "file"⟩ [1, 2]) ⟨["tmp"], "file"⟩ [],
       Except.ok ⟨["tmp"], "file"⟩) :=
  ⟨gunzip_output_path_identity.1 _ (by decide),
   gunzip_output_path_identity.2.1 _ (by decide),
   gunzip_output_path_identity.2.2 _ _ [1, 2] (by decide) (by decide)⟩

/-- C5 counterexample: empty file content does not start with the gzip magic
header (a "non-gzip input"), yet the transformer does not fail with a decode
error — an empty stream is read as zero gzip members, so it silently
succeeds and returns the stripped output path. -/
theorem gunzip_empty_input_counterexample :
    gzipMagic.isPrefixOf ([] : Bytes) = false ∧
    (gunzip_transformer (updateFS emptyFS ⟨["tmp"], "f.gz"⟩ []) ⟨["tmp"], "f.gz"⟩).2
      = Except.ok (withSuffixEmpty ⟨["tmp"], "f.gz"⟩) := by
  refine ⟨by decide, by rfl⟩

/-- C5 (amended): the gunzip transformer applied to a file holding the gzip
compression of some byte sequence succeeds, writes the original
pre-compression bytes to the adjacent path with the compression suffix
stripped, and returns that path; applied to nonempty content that does not
start with the gzip magic header it fails with a decode error; applied to
empty content it is read as a zero-member gzip stream and succeeds with
empty output. -/
theorem gunzip_roundtrip_and_decode_error :
    (∀ (fs : FS) (p : Path) (b : Bytes),
      hasSuffix p.name = true → fs p = some (gzipCompress b) →
      ∃ fs2, gunzip_transformer fs p = (fs2, Except.ok (withSuffixEmpty p)) ∧
        fs2 (withSuffixEmpty p) = some b) ∧
    (∀ (fs : FS) (p : Path) (d : Bytes),
      hasSuffix p.name = true → fs p = some d → d ≠ [] →
      gzipMagic.isPrefixOf d = false →
      (gunzip_transformer fs p).2 = Except.error (TErr.decodeError "BadGzipFile")) ∧
    (∀ (fs : FS) (p : Path),
      hasSuffix p.name = true → fs p = some [] →
      gunzip_transformer fs p =
        (updateFS fs (withSuffixEmpty p) [], Except.ok (withSuffixEmpty p))) := by
  refine ⟨?_, ?_, ?_⟩
  · intro fs p b hs hfs
    have hne := withSuffixEmpty_ne_of_suffix p hs
    unfold gunzip_transformer
    rw [hfs]
    dsimp only
    rw [if_neg hne, gzipDecode_compress]
    exact ⟨updateFS fs (withSuffixEmpty p) b, rfl, by simp [updateFS]⟩
  · intro fs p d hs hfs hd hpre
    have hne := withSuffixEmpty_ne_of_suffix p hs
    unfold gunzip_transformer
    rw [hfs]
    dsimp only
    rw [if_neg hne, gzipDecode_bad d hd hpre]
  · intro fs p hs hfs
    have hne := withSuffixEmpty_ne_of_suffix p hs
    unfold gunzip_transformer
    rw [hfs]
    dsimp only
    rw [if_neg hne, gzipDecode_nil]

/-- Witness for C5: round trip of the bytes `[7, 8]` through
compress-then-gunzip at `tmp/f.gz`, a decode failure on the nonempty
non-gzip content `[1, 2, 3]`, and silent success on empty content. -/
theorem gunzip_roundtrip_witness :
    (∃ fs2, gunzip_transformer (updateFS emptyFS ⟨["tmp"], "f.gz"⟩ (gzipCompress [7, 8]))
        ⟨["tmp"], "f.gz"⟩ = (fs2, Except.ok (withSuffixEmpty ⟨["tmp"], "f.gz"⟩)) ∧
      fs2 (withSuffixEmpty ⟨["tmp"], "f.gz"⟩) = some [7, 8]) ∧
    (gunzip_transformer (updateFS emptyFS ⟨["tmp"], "bad.gz"⟩ [1, 2, 3])
        ⟨["tmp"], "bad.gz"⟩).2 = Except.error (TErr.decodeError "BadGzipFile") ∧
    gunzip_transformer (updateFS emptyFS ⟨["tmp"], "e.gz"⟩ []) ⟨["tmp"], "e.gz"⟩ =
      (updateFS (updateFS emptyFS ⟨["tmp"], "e.gz"⟩ []) (withSuffixEmpty ⟨["tmp"], "e.gz"⟩) [],
       Except.ok (withSuffixEmpty ⟨["tmp"], "e.gz"⟩)) :=
  ⟨gunzip_roundtrip_and_decode_error.1 _ _ [7, 8] (by decide) (by decide),
   gunzip_roundtrip_and_decode_error.2.1 _ _ [1, 2, 3] (by decide) (by decide)
     (by decide) (by decide),
   gunzip_roundtrip_and_decode_error.2.2 _ _ (by decide) (by decide)⟩

/-- C9: the transform pipeline applied to the empty step list returns the
input path unchanged (with the filesystem untouched), and on any step list
it computes the left fold of the step functions over the initial path in
declared order. -/
theorem apply_transforms_identity_and_fold :
    (∀ (fs : FS) (p : Path), apply_transforms fs p [] = (fs, Except.ok p)) ∧
    (∀ (steps : List TransformStep) (fs : FS) (p : Path),
      apply_transforms fs p steps = apply_transforms_foldSpec fs p steps) := by
  constructor
  · intro fs p
    rfl
  · intro steps
    induction steps with
    | nil =>
      intro fs p
      rfl
    | cons t rest ih =>
      intro fs p
      unfold apply_transforms apply_transforms_foldSpec
      rw [List.foldl_cons]
      rcases hl : lookupTransformer t.type with _ | f
      · dsimp only
        have hst : applyStepSpec (fs, Except.ok p) t =
            (fs, Except.error (TErr.unknownTransformer t.type)) := by
          unfold applyStepSpec
          dsimp only
          rw [hl]
        rw [hst, foldSpec_error]
      · dsimp only
        have hst : applyStepSpec (fs, Except.ok p) t = f fs p := by
          unfold applyStepSpec
          dsimp only
          rw [hl]
        rw [hst]
        rcases hf : f fs p with ⟨fs2, e2⟩
        rcases e2 with e | p2
        · dsimp only
          rw [foldSpec_error]
        · dsimp only
          exact ih fs2 p2

/-- C10: with `retry_attempts = 0` the loop body never runs: both
`mirror_image` and `mirror_file` perform zero attempts of the underlying
operation and report failure immediately — no copy, fetch or push event ever
occurs (for a file job the temporary directory is still created and deleted). -/
theorem zero_attempts_fail_without_operations (ienv : ImageEnv) (fenv : FileEnv)
    (source destination tag registry_owner ru rp : String)
    (fsource fdestination : String) (tags : List String)
    (transforms : List TransformStep) (mime_type : Option String) (delay : Nat) :
    mirror_image ienv source destination tag registry_owner ru rp 0 delay
      = ([], false) ∧
    mirror_file fenv fsource fdestination tags transforms registry_owner ru rp
        mime_type 0 delay
      = ([Ev.tmpCreate fenv.tmpdir, Ev.tmpDelete fenv.tmpdir], false) := by
  constructor <;> rfl

/-- C1 counterexample: a file job whose transform list contains the
unregistered type `bzip2` still performs a network fetch on its (single)
attempt — the download happens before transform resolution — refuting that
processing fails before any network fetch is attempted. -/
theorem unknown_transform_fetch_counterexample :
    (∃ s ∈ [TransformStep.mk (some "bzip2")], lookupTransformer s.type = none) ∧
    (mirror_file cenvFile "http://h/a.txt" "dest" ["latest"]
        [TransformStep.mk (some "bzip2")] "owner" "u" "p" none 1 0).1.countP isFetch
      = 1 ∧
    (mirror_file cenvFile "http://h/a.txt" "dest" ["latest"]
        [TransformStep.mk (some "bzip2")] "owner" "u" "p" none 1 0).2 = false := by
  refine ⟨⟨TransformStep.mk (some "bzip2"), ?_, rfl⟩, by decide, by decide⟩
  simp

/-- C1 (amended): a file job whose transform list contains an unregistered
type fails before any push call is attempted — no push event occurs and the
job reports failure — although the network fetch of each attempt does occur,
since the download precedes transform resolution. -/
theorem unknown_transform_fails_before_push (env : FileEnv)
    (source destination : String) (tags : List String)
    (transforms : List TransformStep) (registry_owner ru rp : String)
    (mime_type : Option String) (total delay : Nat)
    (h : ∃ s ∈ transforms, lookupTransformer s.type = none) :
    (mirror_file env source destination tags transforms registry_owner ru rp
        mime_type total delay).1.countP isPush = 0 ∧
    (mirror_file env source destination tags transforms registry_owner ru rp
        mime_type total delay).2 = false := by
  unfold mirror_file
  dsimp only
  have h1 : (retryGo
      (fileAttempt env source destination tags transforms registry_owner ru rp mime_type)
      delay emptyFS 1 total).1.countP isPush = 0 :=
    retryGo_countP_zero _ delay isPush
      (fun s n => (fileAttempt_unknown_fails env source destination tags transforms
        registry_owner ru rp mime_type h s n).1)
      (fun d => rfl) total 1 emptyFS
  have h2 : (retryGo
      (fileAttempt env source destination tags transforms registry_owner ru rp mime_type)
      delay emptyFS 1 total).2 = false :=
    retryGo_false_of_stepFalse _ delay
      (fun s n => (fileAttempt_unknown_fails env source destination tags transforms
        registry_owner ru rp mime_type h s n).2) total 1 emptyFS
  refine ⟨?_, h2⟩
  simp [List.countP_cons, List.countP_append, h1, isPush]

/-- Witness for the amended C1 at a concrete job with transform `bzip2`. -/
theorem unknown_transform_fails_before_push_witness :
    (mirror_file cenvFile "http://h/a.txt" "dest" ["latest"]
        [TransformStep.mk (some "bzip2")] "owner" "u" "p" none 2 1).1.countP isPush
      = 0 ∧
    (mirror_file cenvFile "http://h/a.txt" "dest" ["latest"]
        [TransformStep.mk (some "bzip2")] "owner" "u" "p" none 2 1).2 = false :=
  unknown_transform_fails_before_push cenvFile "http://h/a.txt" "dest" ["latest"]
    [TransformStep.mk (some "bzip2")] "owner" "u" "p" none 2 1
    ⟨TransformStep.mk (some "bzip2"), by simp, rfl⟩

theorem mirror_file_countP (env : FileEnv) (source destination : String)
    (tags : List String) (transforms : List TransformStep)
    (registry_owner ru rp : String) (mime_type : Option String)
    (total delay : Nat) (p : Ev → Bool)
    (hc : p (Ev.tmpCreate env.tmpdir) = false)
    (hd : p (Ev.tmpDelete env.tmpdir) = false) :
    (mirror_file env source destination tags transforms registry_owner ru rp
        mime_type total delay).1.countP p =
    (retryGo (fileAttempt env source destination tags transforms registry_owner
        ru rp mime_type) delay emptyFS 1 total).1.countP p := by
  unfold mirror_file
  dsimp only
  simp [List.countP_cons, List.countP_append, hc, hd]

/-- C2: the retry loop of both `mirror_image` and `mirror_file` performs
exactly `k` attempts, sleeps exactly `k - 1` times and reports success when
the underlying operation first succeeds on attempt `k ≤ retry_attempts`; and
performs exactly `retry_attempts` attempts, sleeps `retry_attempts - 1`
times and reports failure when every attempt fails.  Attempts are counted by
their copy (image) / fetch (file) events and sleeps by sleep events. -/
theorem retry_attempts_and_sleeps (ienv : ImageEnv) (fenv : FileEnv)
    (source destination tag registry_owner ru rp : String)
    (fsource fdestination : String) (tags : List String)
    (transforms : List TransformStep) (mime_type : Option String)
    (total delay k : Nat) (hk1 : 1 ≤ k) (hk2 : k ≤ total) :
    (firstSuccessAt (imageSucc ienv) k →
      (mirror_image ienv source destination tag registry_owner ru rp total
          delay).1.countP isCopy = k ∧
      (mirror_image ienv source destination tag registry_owner ru rp total
          delay).1.countP isSleep = k - 1 ∧
      (mirror_image ienv source destination tag registry_owner ru rp total
          delay).2 = true) ∧
    (allFailThrough (imageSucc ienv) total →
      (mirror_image ienv source destination tag registry_owner ru rp total
          delay).1.countP isCopy = total ∧
      (mirror_image ienv source destination tag registry_owner ru rp total
          delay).1.countP isSleep = total - 1 ∧
      (mirror_image ienv source destination tag registry_owner ru rp total
          delay).2 = false) ∧
    (firstSuccessAt (fileSucc fenv fsource fdestination tags transforms
        registry_owner ru rp mime_type) k →
      (mirror_file fenv fsource fdestination tags transforms registry_owner
          ru rp mime_type total delay).1.countP isFetch = k ∧
      (mirror_file fenv fsource fdestination tags transforms registry_owner
          ru rp mime_type total delay).1.countP isSleep = k - 1 ∧
      (mirror_file fenv fsource fdestination tags transforms registry_owner
          ru rp mime_type total delay).2 = true) ∧
    (allFailThrough (fileSucc fenv fsource fdestination tags transforms
        registry_owner ru rp mime_type) total →
      (mirror_file fenv fsource fdestination tags transforms registry_owner
          ru rp mime_type total delay).1.countP isFetch = total ∧
      (mirror_file fenv fsource fdestination tags transforms registry_owner
          ru rp mime_type total delay).1.countP isSleep = total - 1 ∧
      (mirror_file fenv fsource fdestination tags transforms registry_owner
          ru rp mime_type total delay).2 = false) := by
  refine ⟨?_, ?_, ?_, ?_⟩
  · intro hfs
    have hcnt := retryGo_count_firstSuccess
      (imageAttempt ienv (source ++ ":" ++ tag)
        (replaceOwner destination registry_owner ++ ":" ++ tag))
      delay () isCopy (fun s n => rfl) (fun s n => rfl) (fun d => rfl) k
      total 1 (le_refl 1) hk1 (by omega)
      (fun j hj1 hj2 => hfs.2 j hj1 hj2) hfs.1
    have h1 : (mirror_image ienv source destination tag registry_owner ru rp total
        delay).1.countP isCopy = k + 1 - 1 := hcnt.1
    exact ⟨by omega, hcnt.2.1, hcnt.2.2⟩
  · intro haf
    have hcnt := retryGo_count_allFail
      (imageAttempt ienv (source ++ ":" ++ tag)
        (replaceOwner destination registry_owner ++ ":" ++ tag))
      delay () isCopy (fun s n => rfl) (fun s n => rfl) (fun d => rfl)
      total 1 (le_refl 1) (fun j hj1 hj2 => haf j hj1 (by omega))
    exact ⟨hcnt.1, hcnt.2.1, hcnt.2.2⟩
  · intro hfs
    have hcnt := retryGo_count_firstSuccess
      (fileAttempt fenv fsource fdestination tags transforms registry_owner
        ru rp mime_type)
      delay emptyFS isFetch
      (fileAttempt_countFetch fenv fsource fdestination tags transforms
        registry_owner ru rp mime_type)
      (fileAttempt_countSleep fenv fsource fdestination tags transforms
        registry_owner ru rp mime_type)
      (fun d => rfl) k total 1 (le_refl 1) hk1 (by omega)
      (fun j hj1 hj2 => hfs.2 j hj1 hj2) hfs.1
    refine ⟨?_, ?_, hcnt.2.2⟩
    · rw [mirror_file_countP fenv fsource fdestination tags transforms
        registry_owner ru rp mime_type total delay isFetch rfl rfl]
      have h1 : (retryGo (fileAttempt fenv fsource fdestination tags transforms
          registry_owner ru rp mime_type) delay emptyFS 1 total).1.countP isFetch
          = k + 1 - 1 := hcnt.1
      omega
    · rw [mirror_file_countP fenv fsource fdestination tags transforms
        registry_owner ru rp mime_type total delay isSleep rfl rfl]
      exact hcnt.2.1
  · intro haf
    have hcnt := retryGo_count_allFail
      (fileAttempt fenv fsource fdestination tags transforms registry_owner
        ru rp mime_type)
      delay emptyFS isFetch
      (fileAttempt_countFetch fenv fsource fdestination tags transforms
        registry_owner ru rp mime_type)
      (fileAttempt_countSleep fenv fsource fdestination tags transforms
        registry_owner ru rp mime_type)
      (fun d => rfl) total 1 (le_refl 1) (fun j hj1 hj2 => haf j hj1 (by omega))
    refine ⟨?_, ?_, hcnt.2.2⟩
    · rw [mirror_file_countP fenv fsource fdestination tags transforms
        registry_owner ru rp mime_type total delay isFetch rfl rfl]
      exact hcnt.1
    · rw [mirror_file_countP fenv fsource fdestination tags transforms
        registry_owner ru rp mime_type total delay isSleep rfl rfl]
      exact hcnt.2.1

/-- Witness for C2: first success on attempt 2 of 3 gives 2 attempts, 1
sleep and success; all attempts failing gives 3 attempts, 2 sleeps and
failure — for both the image and the file loop. -/
theorem retry_attempts_and_sleeps_witness :
    ((mirror_image cenvImage "src" "dst" "v1" "acme" "u" "p" 3 5).1.countP isCopy = 2 ∧
     (mirror_image cenvImage "src" "dst" "v1" "acme" "u" "p" 3 5).1.countP isSleep = 1 ∧
     (mirror_image cenvImage "src" "dst" "v1" "acme" "u" "p" 3 5).2 = true) ∧
    ((mirror_image cenvImageFail "src" "dst" "v1" "acme" "u" "p" 3 5).1.countP isCopy = 3 ∧
     (mirror_image cenvImageFail "src" "dst" "v1" "acme" "u" "p" 3 5).1.countP isSleep = 2 ∧
     (mirror_image cenvImageFail "src" "dst" "v1" "acme" "u" "p" 3 5).2 = false) ∧
    ((mirror_file cenvFileRetry "http://h/a.txt" "dst" ["latest"] [] "acme" "u" "p"
        none 3 5).1.countP isFetch = 2 ∧
     (mirror_file cenvFileRetry "http://h/a.txt" "dst" ["latest"] [] "acme" "u" "p"
        none 3 5).1.countP isSleep = 1 ∧
     (mirror_file cenvFileRetry "http://h/a.txt" "dst" ["latest"] [] "acme" "u" "p"
        none 3 5).2 = true) ∧
    ((mirror_file cenvFileFail "http://h/a.txt" "dst" ["latest"] [] "acme" "u" "p"
        none 3 5).1.countP isFetch = 3 ∧
     (mirror_file cenvFileFail "http://h/a.txt" "dst" ["latest"] [] "acme" "u" "p"
        none 3 5).1.countP isSleep = 2 ∧
     (mirror_file cenvFileFail "http://h/a.txt" "dst" ["latest"] [] "acme" "u" "p"
        none 3 5).2 = false) := by
  have T1 := retry_attempts_and_sleeps cenvImage cenvFileRetry "src" "dst" "v1"
    "acme" "u" "p" "http://h/a.txt" "dst" ["latest"] [] none 3 5 2
    (by decide) (by decide)
  have T2 := retry_attempts_and_sleeps cenvImageFail cenvFileFail "src" "dst" "v1"
    "acme" "u" "p" "http://h/a.txt" "dst" ["latest"] [] none 3 5 2
    (by decide) (by decide)
  refine ⟨T1.1 ⟨by decide, ?_⟩, T2.2.1 (fun j _ _ => rfl),
    T1.2.2.1 ⟨by decide, ?_⟩, T2.2.2.2 (fun j _ _ => rfl)⟩
  · intro j h1 h2
    have hj : j = 1 := by omega
    subst hj
    decide
  · intro j h1 h2
    have hj : j = 1 := by omega
    subst hj
    decide

/-- C7: for every file job the temporary directory is created before the
first attempt, every download of every retry attempt targets the same path
inside that directory, no other create/delete of a temporary directory
happens in between, and the directory is deleted when the job's processing
completes — whatever the outcome of the attempts. -/
theorem tmpdir_scoped_lifecycle (env : FileEnv) (source destination : String)
    (tags : List String) (transforms : List TransformStep)
    (registry_owner ru rp : String) (mime_type : Option String)
    (total delay : Nat) :
    ∃ mid,
      (mirror_file env source destination tags transforms registry_owner ru rp
          mime_type total delay).1
        = Ev.tmpCreate env.tmpdir :: mid ++ [Ev.tmpDelete env.tmpdir] ∧
      (∀ e ∈ mid, (∀ d2, e ≠ Ev.tmpCreate d2) ∧ (∀ d2, e ≠ Ev.tmpDelete d2)) ∧
      (∀ e ∈ mid, ∀ u q, e = Ev.fetch u q → q = ⟨env.tmpdir, filenameOf source⟩) := by
  have hall := retryGo_events_all
    (fileAttempt env source destination tags transforms registry_owner ru rp mime_type)
    delay
    (fun e => ((∀ d2, e ≠ Ev.tmpCreate d2) ∧ (∀ d2, e ≠ Ev.tmpDelete d2)) ∧
      (∀ u q, e = Ev.fetch u q → q = ⟨env.tmpdir, filenameOf source⟩))
    ?_ ?_ total 1 emptyFS
  · refine ⟨(retryGo (fileAttempt env source destination tags transforms
      registry_owner ru rp mime_type) delay emptyFS 1 total).1, rfl, ?_, ?_⟩
    · exact fun e he => (hall e he).1
    · exact fun e he => (hall e he).2
  · intro s n e he
    rcases fileAttempt_evs_shape env source destination tags transforms
      registry_owner ru rp mime_type s n with h | ⟨pth, h⟩
    · rw [h] at he
      simp only [List.mem_singleton] at he
      subst he
      refine ⟨⟨fun d2 => by simp, fun d2 => by simp⟩, ?_⟩
      intro u q hq
      cases hq
      rfl
    · rw [h] at he
      simp only [List.mem_cons, List.mem_singleton] at he
      rcases he with rfl | rfl | h3
      · refine ⟨⟨fun d2 => by simp, fun d2 => by simp⟩, ?_⟩
        intro u q hq
        cases hq
        rfl
      · refine ⟨⟨fun d2 => by simp, fun d2 => by simp⟩, ?_⟩
        intro u q hq
        simp at hq
      · simp at h3
  · intro d
    refine ⟨⟨fun d2 => by simp, fun d2 => by simp⟩, ?_⟩
    intro u q hq
    simp at hq

/-- Witness for C7 at a concrete failing job (exhausted retries). -/
theorem tmpdir_scoped_lifecycle_witness :
    ∃ mid,
      (mirror_file cenvFileFail "http://h/a.txt" "dst" ["latest"] [] "acme" "u" "p"
          none 2 1).1
        = Ev.tmpCreate cenvFileFail.tmpdir :: mid ++ [Ev.tmpDelete cenvFileFail.tmpdir] ∧
      (∀ e ∈ mid, (∀ d2, e ≠ Ev.tmpCreate d2) ∧ (∀ d2, e ≠ Ev.tmpDelete d2)) ∧
      (∀ e ∈ mid, ∀ u q, e = Ev.fetch u q →
        q = ⟨cenvFileFail.tmpdir, filenameOf "http://h/a.txt"⟩) :=
  tmpdir_scoped_lifecycle cenvFileFail "http://h/a.txt" "dst" ["latest"] [] "acme"
    "u" "p" none 2 1

/-- C6: every image-copy invocation uses the destination reference obtained
by literally substituting the registry owner for the placeholder before the
tag is appended; every file-push invocation likewise pushes to the
substituted destination joined with the full comma-separated tag list; and
on the spec's example the substitution yields `ghcr.io/acme/x`. -/
theorem owner_substitution_all_call_sites (ienv : ImageEnv) (fenv : FileEnv)
    (source destination tag registry_owner ru rp : String)
    (fsource fdestination : String) (tags : List String)
    (transforms : List TransformStep) (mime_type : Option String)
    (itotal idelay ftotal fdelay : Nat) :
    (∀ e ∈ (mirror_image ienv source destination tag registry_owner ru rp
        itotal idelay).1,
      isCopy e = true →
      e = Ev.copy ("docker://" ++ (source ++ ":" ++ tag))
          ("docker://" ++ (replaceOwner destination registry_owner ++ ":" ++ tag))) ∧
    (∀ e ∈ (mirror_file fenv fsource fdestination tags transforms registry_owner
        ru rp mime_type ftotal fdelay).1,
      isPush e = true →
      ∃ pth, e = Ev.push
        (replaceOwner fdestination registry_owner ++ ":" ++ joinComma tags) pth) ∧
    replaceOwner "ghcr.io/\x7b\x7bGITHUB_REPOSITORY_OWNER\x7d\x7d/x" "acme"
      = "ghcr.io/acme/x" := by
  refine ⟨?_, ?_, by decide⟩
  · intro e he hc
    have hall := retryGo_events_all
      (imageAttempt ienv (source ++ ":" ++ tag)
        (replaceOwner destination registry_owner ++ ":" ++ tag))
      idelay
      (fun e => isCopy e = true →
        e = Ev.copy ("docker://" ++ (source ++ ":" ++ tag))
          ("docker://" ++ (replaceOwner destination registry_owner ++ ":" ++ tag)))
      ?_ ?_ itotal 1 ()
    · exact hall e he hc
    · intro s n e2 he2
      simp only [imageAttempt, List.mem_singleton] at he2
      subst he2
      intro _
      rfl
    · intro d hd
      simp [isCopy] at hd
  · intro e he hp
    have hall := retryGo_events_all
      (fileAttempt fenv fsource fdestination tags transforms registry_owner
        ru rp mime_type)
      fdelay
      (fun e => isPush e = true →
        ∃ pth, e = Ev.push
          (replaceOwner fdestination registry_owner ++ ":" ++ joinComma tags) pth)
      ?_ ?_ ftotal 1 emptyFS
    · unfold mirror_file at he
      dsimp only at he
      simp only [List.mem_cons, List.mem_append, List.mem_singleton,
        List.not_mem_nil, or_false] at he
      rcases he with (rfl | he2) | rfl
      · simp [isPush] at hp
      · exact hall e he2 hp
      · simp [isPush] at hp
    · intro s n e2 he2
      rcases fileAttempt_evs_shape fenv fsource fdestination tags transforms
        registry_owner ru rp mime_type s n with h | ⟨pth, h⟩
      · rw [h] at he2
        simp only [List.mem_singleton] at he2
        subst he2
        intro hp2
        simp [isPush] at hp2
      · rw [h] at he2
        simp only [List.mem_cons, List.mem_singleton] at he2
        rcases he2 with rfl | rfl | h3
        · intro hp2
          simp [isPush] at hp2
        · intro _
          exact ⟨pth, rfl⟩
        · simp at h3
    · intro d hd
      simp [isPush] at hd

/-- Witness for C6: concrete call sites with owner `acme`, one image tag and
two file tags. -/
theorem owner_substitution_witness :
    Ev.copy "docker://src:v1" "docker://d/acme:v1"
      = Ev.copy ("docker://" ++ ("src" ++ ":" ++ "v1"))
          ("docker://" ++ (replaceOwner "d/\x7b\x7bGITHUB_REPOSITORY_OWNER\x7d\x7d"
            "acme" ++ ":" ++ "v1")) ∧
    (∃ pth, Ev.push "d2/acme:v1,v2" (⟨["tmp"], "a.txt"⟩ : Path)
      = Ev.push (replaceOwner "d2/\x7b\x7bGITHUB_REPOSITORY_OWNER\x7d\x7d" "acme"
          ++ ":" ++ joinComma ["v1", "v2"]) pth) ∧
    replaceOwner "ghcr.io/\x7b\x7bGITHUB_REPOSITORY_OWNER\x7d\x7d/x" "acme"
      = "ghcr.io/acme/x" := by
  have h := owner_substitution_all_call_sites cenvImageOk cenvFile "src"
    "d/\x7b\x7bGITHUB_REPOSITORY_OWNER\x7d\x7d" "v1" "acme" "u" "p"
    "http://h/a.txt" "d2/\x7b\x7bGITHUB_REPOSITORY_OWNER\x7d\x7d" ["v1", "v2"]
    [] none 1 0 1 0
  have ht : (mirror_file cenvFile "http://h/a.txt"
      "d2/\x7b\x7bGITHUB_REPOSITORY_OWNER\x7d\x7d" ["v1", "v2"] [] "acme" "u" "p"
      none 1 0).1
      = [Ev.tmpCreate ["tmp"], Ev.fetch "http://h/a.txt" ⟨["tmp"], "a.txt"⟩,
         Ev.push "d2/acme:v1,v2" ⟨["tmp"], "a.txt"⟩, Ev.tmpDelete ["tmp"]] := by
    decide
  refine ⟨h.1 (Ev.copy "docker://src:v1" "docker://d/acme:v1")
      (List.Mem.head _) (by decide),
    h.2.1 (Ev.push "d2/acme:v1,v2" ⟨["tmp"], "a.txt"⟩)
      (by rw [ht]; simp) (by decide),
    h.2.2⟩

theorem processFiles_fail_zero_iff (l : List Bool) :
    (processFiles l).2 = 0 ↔ ∀ b ∈ l, b = true := by
  rw [processFiles_fail]
  exact countFalse_zero_iff l

theorem main_run_nil_files (images : List (List Bool)) (loginRes : ToolOutcome) :
    main_run images loginRes [] =
      ((processImages images).1, (processImages images).2,
        if 0 < (processImages images).2 then 1 else 0) := by
  rfl

theorem main_run_login_ok (images : List (List Bool)) (loginRes : ToolOutcome)
    (f0 : Bool) (fr : List Bool) (h : oras_login loginRes = true) :
    main_run images loginRes (f0 :: fr) =
      ((processImages images).1 ++ CoEv.login true :: (processFiles (f0 :: fr)).1,
       (processImages images).2 + (processFiles (f0 :: fr)).2,
       if 0 < (processImages images).2 + (processFiles (f0 :: fr)).2
        then 1 else 0) := by
  unfold main_run
  rw [if_neg (by simp), if_pos h]

theorem main_run_login_fail (images : List (List Bool)) (loginRes : ToolOutcome)
    (f0 : Bool) (fr : List Bool) (h : oras_login loginRes = false) :
    main_run images loginRes (f0 :: fr) =
      ((processImages images).1 ++ [CoEv.login false],
       (processImages images).2, 1) := by
  unfold main_run
  rw [if_neg (by simp), if_neg (by simp [h])]

/-- C3: the coordinator exits with code 0 iff every image tag succeeded and
every file job was processed and succeeded (counted by its successful
file-job events); the failure counter equals the number of failed image tags
plus — when the file phase ran after a successful login — the number of
failed file jobs; and a failed registry login with file jobs present yields
a nonzero exit code (as does any job recorded failed, e.g. after exhausting
its retries). -/
theorem exit_code_and_failure_count (images : List (List Bool))
    (loginRes : ToolOutcome) (files : List Bool) :
    ((main_run images loginRes files).2.2 = 0 ↔
      ((∀ t ∈ images, ∀ b ∈ t, b = true) ∧
       (main_run images loginRes files).1.countP isFileJobOk = files.length)) ∧
    ((main_run images loginRes files).2.1 =
      (images.map countFalse).sum +
        (if files.isEmpty = false ∧ oras_login loginRes = true
          then countFalse files else 0)) ∧
    (files.isEmpty = false → oras_login loginRes = false →
      (main_run images loginRes files).2.2 ≠ 0) := by
  rcases files with _ | ⟨f0, fr⟩
  · rw [main_run_nil_files]
    dsimp only
    refine ⟨?_, ?_, ?_⟩
    · constructor
      · intro hz
        have hz2 : (processImages images).2 = 0 := by
          by_cases h : 0 < (processImages images).2
          · rw [if_pos h] at hz
            exact absurd hz one_ne_zero
          · omega
        refine ⟨(processImages_fail_zero_iff images).mp hz2, ?_⟩
        rw [processImages_countFileOk]
        rfl
      · rintro ⟨hall, _⟩
        have hz2 : (processImages images).2 = 0 :=
          (processImages_fail_zero_iff images).mpr hall
        rw [hz2]
        rfl
    · simp [processImages_fail, countFalse]
    · intro h1 _
      simp at h1
  · by_cases hlo : oras_login loginRes = true
    · rw [main_run_login_ok images loginRes f0 fr hlo]
      dsimp only
      refine ⟨?_, ?_, ?_⟩
      · rw [List.countP_append, List.countP_cons, processImages_countFileOk]
        have hlog : isFileJobOk (CoEv.login true) = false := rfl
        rw [hlog]
        simp only [Bool.false_eq_true, if_false, Nat.add_zero, Nat.zero_add]
        constructor
        · intro hz
          have hz2 : (processImages images).2 = 0 ∧ (processFiles (f0 :: fr)).2 = 0 := by
            by_cases h : 0 < (processImages images).2 + (processFiles (f0 :: fr)).2
            · rw [if_pos h] at hz
              exact absurd hz one_ne_zero
            · omega
          refine ⟨(processImages_fail_zero_iff images).mp hz2.1, ?_⟩
          exact (processFiles_countFileOk_length_iff (f0 :: fr)).mpr
            ((processFiles_fail_zero_iff (f0 :: fr)).mp hz2.2)
        · rintro ⟨hall, hcnt⟩
          have h1 : (processImages images).2 = 0 :=
            (processImages_fail_zero_iff images).mpr hall
          have h2 : (processFiles (f0 :: fr)).2 = 0 :=
            (processFiles_fail_zero_iff (f0 :: fr)).mpr
              ((processFiles_countFileOk_length_iff (f0 :: fr)).mp hcnt)
          rw [h1, h2]
          rfl
      · rw [processImages_fail, processFiles_fail,
          if_pos (⟨by simp, hlo⟩ : (f0 :: fr).isEmpty = false ∧
            oras_login loginRes = true)]
      · intro _ h2
        rw [hlo] at h2
        cases h2
    · have hlo2 : oras_login loginRes = false := by
        revert hlo
        cases oras_login loginRes <;> simp
      rw [main_run_login_fail images loginRes f0 fr hlo2]
      dsimp only
      refine ⟨?_, ?_, fun _ _ => by simp⟩
      · constructor
        · intro hz
          exact absurd hz one_ne_zero
        · rintro ⟨_, hcnt⟩
          rw [List.countP_append, List.countP_cons, processImages_countFileOk] at hcnt
          have hlog : isFileJobOk (CoEv.login false) = false := rfl
          rw [hlog] at hcnt
          simp at hcnt
      · rw [processImages_fail]
        simp [hlo2]

/-- Witness for C3 at a concrete run: one image job with tags `[ok, fail]`,
a successful login and one successful file job gives failure count 1 and a
nonzero exit code. -/
theorem exit_code_and_failure_count_witness :
    ((main_run [[true, false]] (ToolOutcome.exit 0) [true]).2.2 = 0 ↔
      ((∀ t ∈ [[true, false]], ∀ b ∈ t, b = true) ∧
       (main_run [[true, false]] (ToolOutcome.exit 0) [true]).1.countP isFileJobOk
         = [true].length)) ∧
    ((main_run [[true, false]] (ToolOutcome.exit 0) [true]).2.1 =
      ([[true, false]].map countFalse).sum +
        (if ([true] : List Bool).isEmpty = false ∧
            oras_login (ToolOutcome.exit 0) = true
          then countFalse [true] else 0)) ∧
    (([true] : List Bool).isEmpty = false →
      oras_login (ToolOutcome.exit 0) = false →
      (main_run [[true, false]] (ToolOutcome.exit 0) [true]).2.2 ≠ 0) :=
  exit_code_and_failure_count [[true, false]] (ToolOutcome.exit 0) [true]

/-- C4: the coordinator's trace holds exactly one login event when at least
one file job exists and none otherwise; the trace splits into the image-tag
events followed (when file jobs exist) by the single login event and then
only file-job events — so authentication happens once, after all image
copies and before any file job; and a failed login yields no file-job event
at all and exit code 1. -/
theorem login_once_before_files (images : List (List Bool))
    (loginRes : ToolOutcome) (files : List Bool) :
    ((main_run images loginRes files).1.countP isLoginEv =
      if files.isEmpty then 0 else 1) ∧
    (∃ pre post,
      (main_run images loginRes files).1 = pre ++ post ∧
      (∀ e ∈ pre, ∃ b, e = CoEv.imageTag b) ∧
      ((files.isEmpty = true ∧ post = []) ∨
       (files.isEmpty = false ∧
        ∃ fev, post = CoEv.login (oras_login loginRes) :: fev ∧
          ∀ e ∈ fev, ∃ b, e = CoEv.fileJob b))) ∧
    (oras_login loginRes = false →
      (∀ e ∈ (main_run images loginRes files).1, ∀ b, e ≠ CoEv.fileJob b) ∧
      (files.isEmpty = false → (main_run images loginRes files).2.2 = 1)) := by
  rcases files with _ | ⟨f0, fr⟩
  · rw [main_run_nil_files]
    dsimp only
    refine ⟨by simp [processImages_countLogin], ?_, ?_⟩
    · exact ⟨(processImages images).1, [], by simp,
        processImages_all_imageTag images, Or.inl ⟨rfl, rfl⟩⟩
    · intro _
      refine ⟨?_, fun h => by simp at h⟩
      intro e he b heq
      rcases processImages_all_imageTag images e he with ⟨b2, rfl⟩
      simp at heq
  · by_cases hlo : oras_login loginRes = true
    · rw [main_run_login_ok images loginRes f0 fr hlo]
      dsimp only
      refine ⟨?_, ?_, ?_⟩
      · rw [List.countP_append, List.countP_cons, processImages_countLogin,
          processFiles_countLogin]
        rfl
      · refine ⟨(processImages images).1,
          CoEv.login true :: (processFiles (f0 :: fr)).1, rfl,
          processImages_all_imageTag images, Or.inr ⟨by simp, ?_⟩⟩
        refine ⟨(processFiles (f0 :: fr)).1, ?_, processFiles_all_fileJob (f0 :: fr)⟩
        rw [hlo]
      · intro hf
        rw [hlo] at hf
        cases hf
    · have hlo2 : oras_login loginRes = false := by
        revert hlo
        cases oras_login loginRes <;> simp
      rw [main_run_login_fail images loginRes f0 fr hlo2]
      dsimp only
      refine ⟨?_, ?_, ?_⟩
      · rw [List.countP_append, List.countP_cons, processImages_countLogin]
        rfl
      · refine ⟨(processImages images).1, [CoEv.login false], rfl,
          processImages_all_imageTag images, Or.inr ⟨by simp, [], ?_, ?_⟩⟩
        · rw [hlo2]
        · intro e he
          simp at he
      · intro _
        refine ⟨?_, fun _ => rfl⟩
        intro e he b heq
        rcases List.mem_append.mp he with h1 | h2
        · rcases processImages_all_imageTag images e h1 with ⟨b2, rfl⟩
          simp at heq
        · simp only [List.mem_singleton] at h2
          subst h2
          simp at heq

/-- Witness for C4 at a concrete run with a failed login and one file job. -/
theorem login_once_before_files_witness :
    ((main_run [[true]] (ToolOutcome.exit 1) [true]).1.countP isLoginEv =
      if ([true] : List Bool).isEmpty then 0 else 1) ∧
    (∃ pre post,
      (main_run [[true]] (ToolOutcome.exit 1) [true]).1 = pre ++ post ∧
      (∀ e ∈ pre, ∃ b, e = CoEv.imageTag b) ∧
      ((([true] : List Bool).isEmpty = true ∧ post = []) ∨
       (([true] : List Bool).isEmpty = false ∧
        ∃ fev, post = CoEv.login (oras_login (ToolOutcome.exit 1)) :: fev ∧
          ∀ e ∈ fev, ∃ b, e = CoEv.fileJob b))) ∧
    (oras_login (ToolOutcome.exit 1) = false →
      (∀ e ∈ (main_run [[true]] (ToolOutcome.exit 1) [true]).1, ∀ b,
        e ≠ CoEv.fileJob b) ∧
      (([true] : List Bool).isEmpty = false →
        (main_run [[true]] (ToolOutcome.exit 1) [true]).2.2 = 1)) :=
  login_once_before_files [[true]] (ToolOutcome.exit 1) [true]

end Mirror
